import Mathlib

/-! ZenFlow: timer state recovery and tick model

A shallow embedding of `src/app.js` (class `ZenFlow`): the state record, its
recomputation from the absolute deadline on load, the user mutations, the
`requestAnimationFrame` loop and the persistence through `localStorage`.

Conventions of the embedding.

* Timestamps and second counts are JavaScript numbers holding integers; they are
  `Int` here. `Math.ceil(x / 1000)` on an integer `x` is `Math.ceilDiv x 1000`
  (`Math.ceilDiv_eq_ceil` relates it to the ceiling of the rational quotient).
* A field that is "number or null" is `Option Int`, "string or null" is
  `Option String`. The tests `if (v)` / `if (!v)` of the source are JavaScript
  truthiness: `null`, `0` and `""` are falsy (`truthyNum`, `truthyStr`).
* `Date.now()` is an explicit argument `now`.
* `localStorage` is the optional text stored under the key `zenflow_state`.
  A stored record is followed as far as it has the stored format (`spread`): the
  code also accepts a blob holding a value of another type under a state key,
  which no `TimerState` represents.
* `JSON.stringify` / `JSON.parse` are platform functions: the operations take
  them as a `JSONCodec`; `JSON.codec` is a concrete one, written out below.
* `requestAnimationFrame(tick)` adds one to a count of pending callbacks.
* The DOM and the audio element (`render`, `updateTimerDisplay`,
  `renderAudioUI`, `audioPlayer`) do not write to the state and are left out.
-/

/-- The constant `this.DEFAULT_TIME = 25 * 60` (seconds). -/
def DEFAULT_TIME : Int := 25 * 60

/-- The record `this.state`. -/
structure TimerState where
  task : Option String
  timeLeft : Int
  endTime : Option Int
  activeSound : Option String
deriving DecidableEq, Repr

/-- The state the constructor installs before `init`. -/
def TimerState.default : TimerState :=
  { task := none, timeLeft := DEFAULT_TIME, endTime := none, activeSound := none }

/-- JavaScript truthiness of a number-or-null: `null` and `0` are falsy. -/
def truthyNum : Option Int → Bool
  | some n => n != 0
  | none => false

/-- JavaScript truthiness of a string-or-null: `null` and `""` are falsy. -/
def truthyStr : Option String → Bool
  | some s => s != ""
  | none => false

/-- The numeric value of a number-or-null in arithmetic: `null` converts to `0`. -/
def toNumber : Option Int → Int
  | some n => n
  | none => 0

/-- The value of `Math.ceil(x / d)` for integers `x` and `d > 0`. -/
def Math.ceilDiv (x d : Int) : Int := -((-x) / d)

/-- The block of `loadState` after the merge (lines 64-75):
recompute `timeLeft` from the stored `endTime`, or expire the session. -/
def reconcile (s : TimerState) (now : Int) : TimerState :=
  if truthyNum s.endTime then
    let remaining := Math.ceilDiv (toNumber s.endTime - now) 1000
    if remaining > 0 then
      { s with timeLeft := remaining }
    else
      { s with timeLeft := 0, endTime := none }
  else
    s

/-! ## Persistence: the stored blob -/

/-- A parsed JSON value. Numbers are split into integers and the rest, which is
all the state record distinguishes. -/
inductive Json
  | null
  | bool (b : Bool)
  | int (n : Int)
  | nonInt
  | str (s : String)
  | arr (items : List Json)
  | obj (members : List (String × Json))

/-- The platform functions `JSON.stringify` (on a state record) and `JSON.parse`
(`Except.error` is a thrown `SyntaxError`). -/
structure JSONCodec where
  stringify : TimerState → String
  parse : String → Except String Json

/-- The own property `key` of a parsed value, if it has one. Only an object has
properties named like the state keys; of duplicate members the last one counts. -/
def Json.get? : Json → String → Option Json
  | Json.obj members, key => (members.reverse.find? fun m => m.1 == key).map Prod.snd
  | _, _ => none

/-- A stored value read as "string or null". -/
def Json.asStringOrNull : Json → Option (Option String)
  | Json.null => some none
  | Json.str s => some (some s)
  | _ => none

/-- A stored value read as "integer or null". -/
def Json.asIntOrNull : Json → Option (Option Int)
  | Json.null => some none
  | Json.int n => some (some n)
  | _ => none

/-- A stored value read as an integer. -/
def Json.asInt : Json → Option Int
  | Json.int n => some n
  | _ => none

/-- One key of `{ ...this.state, ...parsed }`: the parsed property when there is
one, else the current value; `none` when the parsed property has another type
than the field. -/
def spreadField {α : Type} (current : α) (read : Json → Option α) : Option Json → Option α
  | none => some current
  | some v => read v

/-- The merge `{ ...this.state, ...parsed }` on the four state keys. The code
merges whatever was parsed, without a type test, and goes on with the result; a
`TimerState` holds it exactly when every parsed state key has the type of its
field, and the result is `none` otherwise: the embedding follows the code on
records of the stored format (string or null, integer, integer or null, string
or null) and stops at any other. Properties under other keys, which the code
carries along, are not part of the record. -/
def spread (s : TimerState) (parsed : Json) : Option TimerState :=
  match spreadField s.task Json.asStringOrNull (parsed.get? "task"),
        spreadField s.timeLeft Json.asInt (parsed.get? "timeLeft"),
        spreadField s.endTime Json.asIntOrNull (parsed.get? "endTime"),
        spreadField s.activeSound Json.asStringOrNull (parsed.get? "activeSound") with
  | some task, some timeLeft, some endTime, some activeSound =>
    some { task := task, timeLeft := timeLeft, endTime := endTime, activeSound := activeSound }
  | _, _, _, _ => none

/-- The object `JSON.parse` returns on the text `JSON.stringify` writes for `s`. -/
def TimerState.toJson (s : TimerState) : Json :=
  Json.obj
    [("task", match s.task with | some t => Json.str t | none => Json.null),
     ("timeLeft", Json.int s.timeLeft),
     ("endTime", match s.endTime with | some e => Json.int e | none => Json.null),
     ("activeSound", match s.activeSound with | some a => Json.str a | none => Json.null)]

/-- The two ways `loadState` yields no `TimerState` here. Only the first is an
error of the code. -/
inductive LoadError
  /-- `JSON.parse` threw; nothing in `loadState` or `init` catches it. -/
  | parseError (message : String)
  /-- The blob parses and stores a value of another type under a state key. The
  code raises nothing and goes on with the merged object; the embedding, whose
  state is a `TimerState`, does not follow it there. -/
  | illTyped
deriving DecidableEq, Repr

/-! ## The application object -/

/-- An instance of the class together with the two pieces of its environment it
writes to: the stored blob and the queue of animation-frame callbacks. -/
structure ZenFlow where
  state : TimerState
  storage : Option String
  pending : Nat
deriving DecidableEq, Repr

namespace ZenFlow

/-- The method `saveState`. -/
def saveState (J : JSONCodec) (app : ZenFlow) : ZenFlow :=
  { app with storage := some (J.stringify app.state) }

/-- The call `requestAnimationFrame(tick)`: one more callback is pending. -/
def requestAnimationFrame (app : ZenFlow) : ZenFlow :=
  { app with pending := app.pending + 1 }

/-- The method `loadState`. -/
def loadState (J : JSONCodec) (app : ZenFlow) (now : Int) : Except LoadError ZenFlow :=
  match app.storage with
  | some saved =>
    if saved != "" then
      match J.parse saved with
      | Except.error message => Except.error (LoadError.parseError message)
      | Except.ok parsed =>
        match spread app.state parsed with
        | none => Except.error LoadError.illTyped
        | some merged => Except.ok { app with state := reconcile merged now }
    else
      Except.ok app
  | none => Except.ok app

/-- The body of the closure `tick` in `startTimerLoop`. -/
def tick (J : JSONCodec) (app : ZenFlow) (now : Int) : ZenFlow :=
  if !truthyStr app.state.task then
    app
  else
    let distance := toNumber app.state.endTime - now
    if distance < 0 then
      saveState J { app with state := { app.state with timeLeft := 0, endTime := none } }
    else
      requestAnimationFrame
        { app with state := { app.state with timeLeft := Math.ceilDiv distance 1000 } }

/-- The method `startTimerLoop`: it queues `tick` once. -/
def startTimerLoop (app : ZenFlow) : ZenFlow :=
  requestAnimationFrame app

/-- One pending callback runs: it leaves the queue and `tick` executes. -/
def fire (J : JSONCodec) (app : ZenFlow) (now : Int) : ZenFlow :=
  tick J { app with pending := app.pending - 1 } now

/-- The method `init`. -/
def init (J : JSONCodec) (app : ZenFlow) (now : Int) : Except LoadError ZenFlow :=
  match loadState J app now with
  | Except.error e => Except.error e
  | Except.ok loaded =>
    if truthyStr loaded.state.task && truthyNum loaded.state.endTime then
      Except.ok (startTimerLoop loaded)
    else
      Except.ok loaded

/-- The constructor: default state, then `init`, on a page whose store holds `storage`. -/
def create (J : JSONCodec) (storage : Option String) (now : Int) : Except LoadError ZenFlow :=
  init J { state := TimerState.default, storage := storage, pending := 0 } now

/-- The method `setTask`. -/
def setTask (J : JSONCodec) (app : ZenFlow) (taskName : String) (now : Int) : ZenFlow :=
  let s1 : TimerState := { app.state with task := some taskName, timeLeft := DEFAULT_TIME }
  let s2 : TimerState := { s1 with endTime := some (now + s1.timeLeft * 1000) }
  startTimerLoop (saveState J { app with state := s2 })

/-- The method `resetTask`. -/
def resetTask (J : JSONCodec) (app : ZenFlow) : ZenFlow :=
  saveState J
    { app with state := { app.state with task := none, endTime := none, timeLeft := DEFAULT_TIME } }

/-- The method `addTime`. -/
def addTime (J : JSONCodec) (app : ZenFlow) (seconds : Int) : ZenFlow :=
  if !truthyNum app.state.endTime then
    app
  else
    let s1 : TimerState :=
      { app.state with endTime := some (toNumber app.state.endTime + seconds * 1000) }
    let s2 : TimerState := { s1 with timeLeft := s1.timeLeft + seconds }
    saveState J { app with state := s2 }

/-- The method `toggleSound` (the button element only serves the display). -/
def toggleSound (app : ZenFlow) (key : String) : ZenFlow :=
  if app.state.activeSound = some key then
    { app with state := { app.state with activeSound := none } }
  else
    { app with state := { app.state with activeSound := some key } }

/-- The state the stored blob decodes to: the blob is present and parses, and the
parsed record is read over the default state (`loadState` without the
recomputation of `timeLeft`). -/
def decode (J : JSONCodec) (storage : Option String) : Option TimerState :=
  match storage with
  | some text =>
    match J.parse text with
    | Except.ok parsed => spread TimerState.default parsed
    | Except.error _ => none
  | none => none

/-- One step of the running page: a user mutation, or a pending callback firing. -/
inductive Step (J : JSONCodec) : ZenFlow → ZenFlow → Prop
  | setTask (app : ZenFlow) (taskName : String) (now : Int) :
      Step J app (setTask J app taskName now)
  | addTime (app : ZenFlow) (seconds : Int) : Step J app (addTime J app seconds)
  | resetTask (app : ZenFlow) : Step J app (resetTask J app)
  | toggleSound (app : ZenFlow) (key : String) : Step J app (toggleSound app key)
  | fire (app : ZenFlow) (now : Int) (h : 0 < app.pending) : Step J app (fire J app now)

/-- The configurations the page reaches from the configuration `start` by steps. -/
inductive Reaches (J : JSONCodec) (start : ZenFlow) : ZenFlow → Prop
  | start : Reaches J start start
  | step (a b : ZenFlow) (ha : Reaches J start a) (hab : Step J a b) : Reaches J start b

end ZenFlow

/-! ## A concrete codec

`JSON.stringify` on a state record and `JSON.parse` on text (the JSON grammar
of ECMA-404), as far as `String` and `Int` carry them: numbers are exact, not
rounded to doubles, integers are printed in decimal, and a `\u` escape stands
for the character with that code (escapes of surrogate halves are not paired).
It instantiates the codec of the operations on concrete blobs. -/

namespace JSON

/-- The hexadecimal digit of `n < 16`, lower case. -/
def hexDigit (n : Nat) : Char :=
  if n < 10 then Char.ofNat (48 + n) else Char.ofNat (87 + n)

/-- The text `JSON.stringify` writes for one character of a string. -/
def escapeChar (c : Char) : List Char :=
  if c = '"' then ['\\', '"']
  else if c = '\\' then ['\\', '\\']
  else if c = Char.ofNat 8 then ['\\', 'b']
  else if c = Char.ofNat 12 then ['\\', 'f']
  else if c = '\n' then ['\\', 'n']
  else if c = '\r' then ['\\', 'r']
  else if c = '\t' then ['\\', 't']
  else if c.toNat < 32 then
    ['\\', 'u', '0', '0', hexDigit (c.toNat / 16), hexDigit (c.toNat % 16)]
  else [c]

/-- The characters of a quoted string after the opening quote. -/
def quoteBody : List Char → List Char
  | [] => ['"']
  | c :: cs => escapeChar c ++ quoteBody cs

/-- The text of a string value. -/
def quote (s : String) : List Char := '"' :: quoteBody s.data

/-- The decimal digits of `n`, most significant first, in front of `acc`. -/
def natDigits : Nat → Nat → List Char → List Char
  | 0, _, acc => acc
  | fuel + 1, n, acc =>
    if n / 10 = 0 then Char.ofNat (48 + n % 10) :: acc
    else natDigits fuel (n / 10) (Char.ofNat (48 + n % 10) :: acc)

/-- The text of an integer. -/
def intText : Int → List Char
  | Int.ofNat n => natDigits (n + 1) n []
  | Int.negSucc n => '-' :: natDigits (n + 2) (n + 1) []

/-- The text of a "string or null". -/
def stringOrNullText : Option String → List Char
  | some s => quote s
  | none => "null".data

/-- The text of an "integer or null". -/
def intOrNullText : Option Int → List Char
  | some n => intText n
  | none => "null".data

/-- The text of one member of an object: the quoted key, a colon, the value. -/
def member (key : String) (value : List Char) : List Char :=
  quote key ++ ':' :: value

/-- The text `JSON.stringify(this.state)`: the four keys in the order of the
object literal of the constructor. -/
def stringify (s : TimerState) : String :=
  String.mk
    ('\x7b' :: (member "task" (stringOrNullText s.task)
      ++ ',' :: (member "timeLeft" (intText s.timeLeft)
      ++ ',' :: (member "endTime" (intOrNullText s.endTime)
      ++ ',' :: (member "activeSound" (stringOrNullText s.activeSound)
      ++ ['\x7d'])))))

/-- JSON white space. -/
def isWs (c : Char) : Bool := c == ' ' || c == '\t' || c == '\n' || c == '\r'

/-- Drop leading white space. -/
def skipWs : List Char → List Char
  | [] => []
  | c :: cs => if isWs c then skipWs cs else c :: cs

/-- The value of a decimal digit. -/
def digitVal (c : Char) : Option Nat :=
  if 48 ≤ c.toNat ∧ c.toNat ≤ 57 then some (c.toNat - 48) else none

/-- The value of a hexadecimal digit. -/
def hexVal (c : Char) : Option Nat :=
  if 48 ≤ c.toNat ∧ c.toNat ≤ 57 then some (c.toNat - 48)
  else if 97 ≤ c.toNat ∧ c.toNat ≤ 102 then some (c.toNat - 87)
  else if 65 ≤ c.toNat ∧ c.toNat ≤ 70 then some (c.toNat - 55)
  else none

/-- The code written by the four hexadecimal digits of a `\u` escape. -/
def hex4 (a b c d : Char) : Option Nat :=
  match hexVal a, hexVal b, hexVal c, hexVal d with
  | some x, some y, some z, some w => some (((x * 16 + y) * 16 + z) * 16 + w)
  | _, _, _, _ => none

/-- The character a one-letter escape stands for. -/
def unescape (e : Char) : Option Char :=
  if e = '"' then some '"'
  else if e = '\\' then some '\\'
  else if e = '/' then some '/'
  else if e = 'b' then some (Char.ofNat 8)
  else if e = 'f' then some (Char.ofNat 12)
  else if e = 'n' then some '\n'
  else if e = 'r' then some '\r'
  else if e = 't' then some '\t'
  else none

/-- Where the reader of a string stands: in plain text, after a backslash, or
inside a `\u` escape with the digits read so far. -/
inductive Escape
  | plain
  | backslash
  | unicode (digits : List Nat)

/-- Read a string after its opening quote, one character at a time; `acc` holds
the characters read, last first. `none` is a syntax error. -/
def parseStringBody : List Char → Escape → List Char → Option (String × List Char)
  | [], _, _ => none
  | c :: cs, Escape.plain, acc =>
    if c = '"' then some (String.mk acc.reverse, cs)
    else if c = '\\' then parseStringBody cs Escape.backslash acc
    else if c.toNat < 32 then none
    else parseStringBody cs Escape.plain (c :: acc)
  | c :: cs, Escape.backslash, acc =>
    if c = 'u' then parseStringBody cs (Escape.unicode []) acc
    else
      match unescape c with
      | some x => parseStringBody cs Escape.plain (x :: acc)
      | none => none
  | c :: cs, Escape.unicode digits, acc =>
    match hexVal c with
    | none => none
    | some v =>
      match digits with
      | [z, y, x] =>
        parseStringBody cs Escape.plain (Char.ofNat (((x * 16 + y) * 16 + z) * 16 + v) :: acc)
      | _ => parseStringBody cs (Escape.unicode (v :: digits)) acc

/-- Read a run of decimal digits onto the value `v`, counting them in `k`. -/
def takeDigits : List Char → Nat → Nat → Nat × Nat × List Char
  | [], v, k => (v, k, [])
  | c :: cs, v, k =>
    match digitVal c with
    | some d => takeDigits cs (v * 10 + d) (k + 1)
    | none => (v, k, c :: cs)

/-- The number with digits `m`, sign `neg` and decimal exponent `e`. -/
def mkNumber (neg : Bool) (m : Nat) (e : Int) : Json :=
  let s : Int := if neg then -(m : Int) else m
  if 0 ≤ e then Json.int (s * 10 ^ e.toNat)
  else if (m : Int) % 10 ^ (-e).toNat = 0 then Json.int (s / 10 ^ (-e).toNat)
  else Json.nonInt

/-- Split an optional leading character `sign` off. -/
def takeSign (sign : Char) : List Char → Bool × List Char
  | [] => (false, [])
  | c :: cs => if c = sign then (true, cs) else (false, c :: cs)

/-- Read the optional exponent of a number. -/
def parseExp (neg : Bool) (m : Nat) (fracLen : Nat) : List Char → Option (Json × List Char)
  | [] => some (mkNumber neg m (-(fracLen : Int)), [])
  | c :: cs =>
    if c = 'e' ∨ c = 'E' then
      let signed : Bool × List Char :=
        if (takeSign '-' cs).1 then takeSign '-' cs else (false, (takeSign '+' cs).2)
      match takeDigits signed.2 0 0 with
      | (_, 0, _) => none
      | (x, _ + 1, rest) =>
        some (mkNumber neg m ((if signed.1 then -(x : Int) else x) - fracLen), rest)
    else some (mkNumber neg m (-(fracLen : Int)), c :: cs)

/-- Read the optional fraction of a number, then its exponent. -/
def parseFrac (neg : Bool) (m : Nat) : List Char → Option (Json × List Char)
  | [] => parseExp neg m 0 []
  | c :: cs =>
    if c = '.' then
      match takeDigits cs m 0 with
      | (_, 0, _) => none
      | (m2, k + 1, rest) => parseExp neg m2 (k + 1) rest
    else parseExp neg m 0 (c :: cs)

/-- Read the digits of a number after its sign: a lone `0` or a run without a
leading zero, then fraction and exponent. -/
def parseDigits (neg : Bool) : List Char → Option (Json × List Char)
  | [] => none
  | c :: cs =>
    if c = '0' then parseFrac neg 0 cs
    else
      match takeDigits (c :: cs) 0 0 with
      | (_, 0, _) => none
      | (m, _ + 1, rest) => parseFrac neg m rest

/-- Read a number. -/
def parseNumber (cs : List Char) : Option (Json × List Char) :=
  parseDigits (takeSign '-' cs).1 (takeSign '-' cs).2

/-- Drop the characters of `word` from the front of a text, if it starts with them. -/
def dropWord : List Char → List Char → Option (List Char)
  | [], cs => some cs
  | _ :: _, [] => none
  | w :: ws, c :: cs => if w = c then dropWord ws cs else none

mutual
/-- Read one value; `none` is a syntax error (or the fuel ran out). -/
def parseValue : Nat → List Char → Option (Json × List Char)
  | 0, _ => none
  | fuel + 1, cs =>
    match skipWs cs with
    | [] => none
    | c :: rest =>
      if c = '"' then
        match parseStringBody rest Escape.plain [] with
        | some (s, r) => some (Json.str s, r)
        | none => none
      else if c = '[' then
        match dropWord [']'] (skipWs rest) with
        | some r => some (Json.arr [], r)
        | none => parseItems fuel rest []
      else if c = '\x7b' then
        match dropWord ['\x7d'] (skipWs rest) with
        | some r => some (Json.obj [], r)
        | none => parseMembers fuel rest []
      else if c = 'n' then
        match dropWord "ull".data rest with
        | some r => some (Json.null, r)
        | none => none
      else if c = 't' then
        match dropWord "rue".data rest with
        | some r => some (Json.bool true, r)
        | none => none
      else if c = 'f' then
        match dropWord "alse".data rest with
        | some r => some (Json.bool false, r)
        | none => none
      else parseNumber (c :: rest)
/-- Read the items of an array after an item is due. -/
def parseItems : Nat → List Char → List Json → Option (Json × List Char)
  | 0, _, _ => none
  | fuel + 1, cs, acc =>
    match parseValue fuel cs with
    | none => none
    | some (v, r) =>
      match skipWs r with
      | [] => none
      | c :: r2 =>
        if c = ',' then parseItems fuel r2 (v :: acc)
        else if c = ']' then some (Json.arr (v :: acc).reverse, r2)
        else none
/-- Read the members of an object after a member is due. -/
def parseMembers : Nat → List Char → List (String × Json) → Option (Json × List Char)
  | 0, _, _ => none
  | fuel + 1, cs, acc =>
    match dropWord ['"'] (skipWs cs) with
    | none => none
    | some r =>
      match parseStringBody r Escape.plain [] with
      | none => none
      | some (k, r1) =>
        match dropWord [':'] (skipWs r1) with
        | none => none
        | some r2 =>
          match parseValue fuel r2 with
          | none => none
          | some (v, r3) =>
            match skipWs r3 with
            | [] => none
            | c :: r4 =>
              if c = ',' then parseMembers fuel r4 ((k, v) :: acc)
              else if c = '\x7d' then some (Json.obj ((k, v) :: acc).reverse, r4)
              else none
end

/-- The function `JSON.parse`: one value, white space around it, nothing else.
The fuel bounds the nesting of calls by the length of the text. -/
def parse (text : String) : Except String Json :=
  match parseValue (2 * text.length + 1) text.data with
  | some (v, rest) =>
    match skipWs rest with
    | [] => Except.ok v
    | _ :: _ => Except.error "SyntaxError"
  | none => Except.error "SyntaxError"

/-- A character that ends a number in the text of a record. -/
def endsValue (c : Char) : Prop := c = ',' ∨ c = '\x7d'

/-- The text `txt` reads back as the value `v` in front of a comma or a closing
brace, whatever fuel is left. -/
def Writes (txt : List Char) (v : Json) : Prop :=
  ∀ (f : Nat) (c : Char) (rest : List Char), endsValue c →
    parseValue (f + 1) (txt ++ c :: rest) = some (v, c :: rest)

/-- The codec of the platform. -/
def codec : JSONCodec := { stringify := stringify, parse := parse }

end JSON

/-! ## Arithmetic of the recomputation -/

/-- `Math.ceilDiv x 1000` is the ceiling of the exact quotient `x / 1000`. -/
theorem Math.ceilDiv_eq_ceil (x : Int) : Math.ceilDiv x 1000 = ⌈(x : ℚ) / 1000⌉ := by
  have h := Rat.floor_intCast_div_natCast (-x) 1000
  have e : ((-x : Int) : ℚ) / ((1000 : ℕ) : ℚ) = -((x : ℚ) / 1000) := by
    push_cast; ring
  rw [e, Int.floor_neg] at h
  have h2 : ((1000 : ℕ) : Int) = 1000 := by norm_num
  rw [h2] at h
  unfold Math.ceilDiv
  omega

/-- The recomputed seconds are positive exactly while the deadline is ahead. -/
theorem Math.ceilDiv_pos_iff (x : Int) : 0 < Math.ceilDiv x 1000 ↔ 0 < x := by
  unfold Math.ceilDiv
  omega

/-- More milliseconds never give fewer seconds. -/
theorem Math.ceilDiv_mono {x y : Int} (h : x ≤ y) :
    Math.ceilDiv x 1000 ≤ Math.ceilDiv y 1000 := by
  unfold Math.ceilDiv
  omega

/-! ## The recomputation on load -/

/-- Without a truthy deadline the recomputation leaves the state alone. -/
theorem reconcile_of_falsy (s : TimerState) (now : Int) (h : truthyNum s.endTime = false) :
    reconcile s now = s := by
  simp [reconcile, h]

/-- A truthy deadline still ahead: only `timeLeft` is rewritten. -/
theorem reconcile_of_ahead (s : TimerState) (e now : Int) (he : s.endTime = some e)
    (h0 : e ≠ 0) (h : now < e) :
    reconcile s now = { s with timeLeft := Math.ceilDiv (e - now) 1000 } := by
  have hp : 0 < Math.ceilDiv (e - now) 1000 := (Math.ceilDiv_pos_iff _).2 (by omega)
  simp [reconcile, he, truthyNum, toNumber, h0, hp]

/-- A truthy deadline reached or passed: the session expires. -/
theorem reconcile_of_passed (s : TimerState) (e now : Int) (he : s.endTime = some e)
    (h0 : e ≠ 0) (h : e ≤ now) :
    reconcile s now = { s with timeLeft := 0, endTime := none } := by
  have hp : ¬ 0 < Math.ceilDiv (e - now) 1000 := by
    rw [Math.ceilDiv_pos_iff]; omega
  simp [reconcile, he, truthyNum, toNumber, h0, hp]

/-- C1. The load-time recomputation absorbs an earlier one: for `t1 ≤ t2`,
recomputing at `t1` and then at `t2` gives the state of recomputing at `t2`
alone; with `t2 = t1` this is idempotence at one timestamp. -/
theorem reconcile_reconcile_of_le (s : TimerState) (t1 t2 : Int) (h : t1 ≤ t2) :
    reconcile (reconcile s t1) t2 = reconcile s t2 ∧
      reconcile (reconcile s t1) t1 = reconcile s t1 := by
  have key : ∀ a b : Int, a ≤ b → reconcile (reconcile s a) b = reconcile s b := by
    intro a b hab
    cases he : s.endTime with
    | none =>
      have hf : truthyNum s.endTime = false := by simp [he, truthyNum]
      rw [reconcile_of_falsy s a hf]
    | some e =>
      by_cases h0 : e = 0
      · have hf : truthyNum s.endTime = false := by simp [he, truthyNum, h0]
        rw [reconcile_of_falsy s a hf]
      · by_cases ha : a < e
        · rw [reconcile_of_ahead s e a he h0 ha]
          have he2 : ({ s with timeLeft := Math.ceilDiv (e - a) 1000 } : TimerState).endTime
              = some e := he
          by_cases hb : b < e
          · rw [reconcile_of_ahead { s with timeLeft := Math.ceilDiv (e - a) 1000 } e b he2 h0 hb,
              reconcile_of_ahead s e b he h0 hb]
          · rw [reconcile_of_passed { s with timeLeft := Math.ceilDiv (e - a) 1000 } e b he2 h0
                (by omega),
              reconcile_of_passed s e b he h0 (by omega)]
        · rw [reconcile_of_passed s e a he h0 (by omega),
            reconcile_of_passed s e b he h0 (by omega)]
          exact reconcile_of_falsy _ b (by simp [truthyNum])
  exact ⟨key t1 t2 h, key t1 t1 (le_refl t1)⟩

/-- C1 at a concrete input: a session ending at 2,500,000, recomputed at
1,000,000 and then at 1,000,500. -/
theorem reconcile_reconcile_of_le_witness :
    (1000000 : Int) ≤ 1000500 ∧
    reconcile (reconcile ⟨some "Write report", 1500, some 2500000, none⟩ 1000000) 1000500
      = ⟨some "Write report", 1500, some 2500000, none⟩ ∧
    reconcile ⟨some "Write report", 1500, some 2500000, none⟩ 1000500
      = ⟨some "Write report", 1500, some 2500000, none⟩ :=
  ⟨by decide,
   ((reconcile_reconcile_of_le ⟨some "Write report", 1500, some 2500000, none⟩
      1000000 1000500 (by decide)).1).trans (by decide),
   by decide⟩

/-- C2, as stated, fails at the deadline `0`: it is not null, the clock reading
1000 is past it, and the recomputation keeps `timeLeft = 1500` and `endTime = 0`. -/
theorem reconcile_zero_deadline_counterexample :
    (⟨some "Write report", 1500, some 0, none⟩ : TimerState).endTime = some 0 ∧
    (0 : Int) ≤ 1000 ∧
    reconcile ⟨some "Write report", 1500, some 0, none⟩ 1000
      = ⟨some "Write report", 1500, some 0, none⟩ ∧
    ¬ ((reconcile ⟨some "Write report", 1500, some 0, none⟩ 1000).timeLeft = 0 ∧
       (reconcile ⟨some "Write report", 1500, some 0, none⟩ 1000).endTime = none) := by
  decide

/-- C2, amended. For a state whose `endTime` is a deadline `e` that is neither
null nor `0`, and a clock reading `t ≥ e`, the load-time recomputation yields
`timeLeft = 0` and `endTime = null` and keeps `task` and `activeSound`. -/
theorem reconcile_expired (s : TimerState) (e t : Int) (he : s.endTime = some e)
    (h0 : e ≠ 0) (h : e ≤ t) :
    (reconcile s t).timeLeft = 0 ∧ (reconcile s t).endTime = none ∧
      (reconcile s t).task = s.task ∧ (reconcile s t).activeSound = s.activeSound := by
  rw [reconcile_of_passed s e t he h0 h]
  exact ⟨rfl, rfl, rfl, rfl⟩

/-- C2, amended, at the scenario of the specification: saved with the deadline
1,000,000, reloaded at 1,050,000. -/
theorem reconcile_expired_witness :
    (⟨some "Write report", 1500, some 1000000, none⟩ : TimerState).endTime = some 1000000 ∧
    (1000000 : Int) ≠ 0 ∧ (1000000 : Int) ≤ 1050000 ∧
    (reconcile ⟨some "Write report", 1500, some 1000000, none⟩ 1050000).timeLeft = 0 ∧
    (reconcile ⟨some "Write report", 1500, some 1000000, none⟩ 1050000).endTime = none ∧
    (reconcile ⟨some "Write report", 1500, some 1000000, none⟩ 1050000).task
      = some "Write report" :=
  ⟨rfl, by decide, by decide,
   (reconcile_expired ⟨some "Write report", 1500, some 1000000, none⟩ 1000000 1050000 rfl
      (by decide) (by decide)).1,
   (reconcile_expired ⟨some "Write report", 1500, some 1000000, none⟩ 1000000 1050000 rfl
      (by decide) (by decide)).2.1,
   (reconcile_expired ⟨some "Write report", 1500, some 1000000, none⟩ 1000000 1050000 rfl
      (by decide) (by decide)).2.2.1⟩

/-- C8. While the session is active the recomputed `timeLeft` does not grow with
the clock: for a deadline `e` and `t1 < t2 ≤ e`, the value at `t2` is at most the
value at `t1`. -/
theorem reconcile_timeLeft_antitone (s : TimerState) (e t1 t2 : Int)
    (he : s.endTime = some e) (h12 : t1 < t2) (h2 : t2 ≤ e) :
    (reconcile s t2).timeLeft ≤ (reconcile s t1).timeLeft := by
  by_cases h0 : e = 0
  · have hf : truthyNum s.endTime = false := by simp [he, truthyNum, h0]
    rw [reconcile_of_falsy s t1 hf, reconcile_of_falsy s t2 hf]
  · rw [reconcile_of_ahead s e t1 he h0 (by omega)]
    by_cases hb : t2 < e
    · rw [reconcile_of_ahead s e t2 he h0 hb]
      exact Math.ceilDiv_mono (by omega)
    · rw [reconcile_of_passed s e t2 he h0 (by omega)]
      exact le_of_lt ((Math.ceilDiv_pos_iff _).2 (by omega))

/-- C8 at a concrete input: the deadline 2,500,000 read at 1,000,000 and at
1,000,500. -/
theorem reconcile_timeLeft_antitone_witness :
    (1000000 : Int) < 2400000 ∧ (2400000 : Int) ≤ 2500000 ∧
    (reconcile ⟨some "Write report", 1500, some 2500000, none⟩ 2400000).timeLeft
      ≤ (reconcile ⟨some "Write report", 1500, some 2500000, none⟩ 1000000).timeLeft ∧
    (reconcile ⟨some "Write report", 1500, some 2500000, none⟩ 2400000).timeLeft = 100 ∧
    (reconcile ⟨some "Write report", 1500, some 2500000, none⟩ 1000000).timeLeft = 1500 :=
  ⟨by decide, by decide,
   reconcile_timeLeft_antitone ⟨some "Write report", 1500, some 2500000, none⟩ 2500000
     1000000 2400000 rfl (by decide) (by decide),
   by decide, by decide⟩

/-! ## The user mutations -/

/-- C6. From any prior configuration, `setTask(n)` at the clock reading `now`
yields `task = n`, `timeLeft = DEFAULT_TIME = 1500` and
`endTime = now + 1500 * 1000`, which is later than `now`, and keeps
`activeSound`; with `n = "Write report"` and `now = 1,000,000` the deadline is
2,500,000. The name is not required to be non-empty. -/
theorem setTask_state (J : JSONCodec) (app : ZenFlow) (n : String) (now : Int) :
    ((app.setTask J n now).state.task = some n ∧
      (app.setTask J n now).state.timeLeft = DEFAULT_TIME ∧ DEFAULT_TIME = 1500 ∧
      (app.setTask J n now).state.endTime = some (now + 1500 * 1000) ∧
      now < now + 1500 * 1000 ∧
      (app.setTask J n now).state.activeSound = app.state.activeSound) ∧
    (app.setTask J "Write report" 1000000).state
      = ⟨some "Write report", 1500, some 2500000, app.state.activeSound⟩ := by
  refine ⟨⟨rfl, rfl, rfl, rfl, by omega, rfl⟩, rfl⟩

/-- C7, as stated, fails at the deadline `0`: `endTime` is not null, yet
`addTime(300)` returns at its guard and changes nothing. -/
theorem addTime_zero_deadline_counterexample :
    (⟨some "Write report", 1500, some 0, none⟩ : TimerState).endTime ≠ none ∧
    (ZenFlow.addTime JSON.codec ⟨⟨some "Write report", 1500, some 0, none⟩, none, 0⟩ 300).state
      = ⟨some "Write report", 1500, some 0, none⟩ ∧
    ¬ ((ZenFlow.addTime JSON.codec
          ⟨⟨some "Write report", 1500, some 0, none⟩, none, 0⟩ 300).state.endTime
        = some (0 + 300 * 1000) ∧
       (ZenFlow.addTime JSON.codec
          ⟨⟨some "Write report", 1500, some 0, none⟩, none, 0⟩ 300).state.timeLeft
        = 1500 + 300) := by
  decide

/-- C7, amended. If `endTime` is null or `0`, `addTime(delta)` changes nothing
(state, store and queue) and raises no error; if `endTime` is a deadline `e`
other than `0`, it yields `endTime = e + delta * 1000` and
`timeLeft = timeLeft + delta` and keeps `task` and `activeSound`; so
`addTime(300)` on `endTime = 2,500,000`, `timeLeft = 1500` gives 2,800,000 and
1800. -/
theorem addTime_state (J : JSONCodec) (app : ZenFlow) (delta : Int) :
    (app.state.endTime = none ∨ app.state.endTime = some 0 → app.addTime J delta = app) ∧
    (∀ e : Int, app.state.endTime = some e → e ≠ 0 →
      (app.addTime J delta).state.endTime = some (e + delta * 1000) ∧
      (app.addTime J delta).state.timeLeft = app.state.timeLeft + delta ∧
      (app.addTime J delta).state.task = app.state.task ∧
      (app.addTime J delta).state.activeSound = app.state.activeSound) ∧
    (ZenFlow.addTime J ⟨⟨app.state.task, 1500, some 2500000, app.state.activeSound⟩,
        app.storage, app.pending⟩ 300).state
      = ⟨app.state.task, 1800, some 2800000, app.state.activeSound⟩ := by
  refine ⟨?_, ?_, by simp [ZenFlow.addTime, ZenFlow.saveState, truthyNum, toNumber]⟩
  · intro h
    have hf : truthyNum app.state.endTime = false := by
      rcases h with h | h <;> simp [h, truthyNum]
    simp [ZenFlow.addTime, hf]
  · intro e he h0
    simp [ZenFlow.addTime, ZenFlow.saveState, he, truthyNum, toNumber, h0]

/-- C7, amended, at concrete inputs: an expired session (task set, no deadline)
and the running session of the specification. -/
theorem addTime_state_witness :
    ZenFlow.addTime JSON.codec ⟨⟨some "Write report", 0, none, none⟩, none, 0⟩ 300
      = ⟨⟨some "Write report", 0, none, none⟩, none, 0⟩ ∧
    (ZenFlow.addTime JSON.codec
        ⟨⟨some "Write report", 1500, some 2500000, none⟩, none, 1⟩ 300).state.endTime
      = some (2500000 + 300 * 1000) :=
  ⟨(addTime_state JSON.codec ⟨⟨some "Write report", 0, none, none⟩, none, 0⟩ 300).1
     (Or.inl rfl),
   ((addTime_state JSON.codec ⟨⟨some "Write report", 1500, some 2500000, none⟩, none, 1⟩
      300).2.1 2500000 rfl (by decide)).1⟩

/-! ## The scheduler tick against the recomputation on load -/

/-- Off the boundary the tick is the recomputation on load: with a truthy task
and a truthy deadline other than the clock reading, `tick` leaves the state
`reconcile` computes. -/
theorem tick_state_eq_reconcile (J : JSONCodec) (app : ZenFlow) (e now : Int)
    (ht : truthyStr app.state.task = true) (he : app.state.endTime = some e)
    (h0 : e ≠ 0) (hne : e ≠ now) :
    (ZenFlow.tick J app now).state = reconcile app.state now := by
  by_cases h : now < e
  · rw [reconcile_of_ahead app.state e now he h0 h]
    have hd : ¬ e - now < 0 := by omega
    simp [ZenFlow.tick, ZenFlow.requestAnimationFrame, ht, he, toNumber, hd]
  · rw [reconcile_of_passed app.state e now he h0 (by omega)]
    have hd : e - now < 0 := by omega
    simp [ZenFlow.tick, ZenFlow.saveState, ht, he, toNumber, hd]

/-- C3 at the failing input: a running session whose deadline 2,500,000 equals
the clock reading. `tick` sets `timeLeft = 0`, keeps `endTime` and queues
itself again; the recomputation on load sets `endTime = null`. -/
theorem tick_at_deadline_differs :
    (ZenFlow.tick JSON.codec ⟨⟨some "Write report", 1, some 2500000, none⟩, none, 0⟩
        2500000)
      = ⟨⟨some "Write report", 0, some 2500000, none⟩, none, 1⟩ ∧
    reconcile ⟨some "Write report", 1, some 2500000, none⟩ 2500000
      = ⟨some "Write report", 0, none, none⟩ ∧
    (ZenFlow.tick JSON.codec ⟨⟨some "Write report", 1, some 2500000, none⟩, none, 0⟩
        2500000).state
      ≠ reconcile ⟨some "Write report", 1, some 2500000, none⟩ 2500000 := by
  decide

/-! ## The concrete codec reads back what it writes -/

namespace JSON

/-- The nine ways `escapeChar` writes a character. -/
theorem escapeChar_cases (c : Char) :
    (c = '"' ∧ escapeChar c = ['\\', '"']) ∨ (c = '\\' ∧ escapeChar c = ['\\', '\\']) ∨
    (c = Char.ofNat 8 ∧ escapeChar c = ['\\', 'b']) ∨
    (c = Char.ofNat 12 ∧ escapeChar c = ['\\', 'f']) ∨
    (c = '\n' ∧ escapeChar c = ['\\', 'n']) ∨
    (c = '\r' ∧ escapeChar c = ['\\', 'r']) ∨
    (c = '\t' ∧ escapeChar c = ['\\', 't']) ∨
    (c.toNat < 32 ∧ escapeChar c
      = ['\\', 'u', '0', '0', hexDigit (c.toNat / 16), hexDigit (c.toNat % 16)]) ∨
    (c ≠ '"' ∧ c ≠ '\\' ∧ ¬ c.toNat < 32 ∧ escapeChar c = [c]) := by
  unfold escapeChar
  split_ifs <;> simp_all

/-- The two digits written for a control character read back as its code. -/
theorem unicode_escape_reads (n : Nat) (h : n < 32) :
    hexVal (hexDigit (n / 16)) = some (n / 16) ∧ hexVal (hexDigit (n % 16)) = some (n % 16) := by
  interval_cases n <;> decide

/-- A quoted string reads back as the string, whatever follows the closing quote. -/
theorem parseStringBody_quoteBody (cs rest : List Char) :
    ∀ acc : List Char, parseStringBody (quoteBody cs ++ rest) Escape.plain acc
      = some (String.mk (acc.reverse ++ cs), rest) := by
  induction cs with
  | nil => intro acc; simp [quoteBody, parseStringBody]
  | cons c cs ih =>
    intro acc
    have step : parseStringBody (escapeChar c ++ (quoteBody cs ++ rest)) Escape.plain acc
        = parseStringBody (quoteBody cs ++ rest) Escape.plain (c :: acc) := by
      rcases escapeChar_cases c with h | h | h | h | h | h | h | h | h
      · obtain ⟨hc, he⟩ := h
        subst hc
        rw [he]
        simp [parseStringBody, unescape]
      · obtain ⟨hc, he⟩ := h
        subst hc
        rw [he]
        simp [parseStringBody, unescape]
      · obtain ⟨hc, he⟩ := h
        subst hc
        rw [he]
        simp [parseStringBody, unescape]
      · obtain ⟨hc, he⟩ := h
        subst hc
        rw [he]
        simp [parseStringBody, unescape]
      · obtain ⟨hc, he⟩ := h
        subst hc
        rw [he]
        simp [parseStringBody, unescape]
      · obtain ⟨hc, he⟩ := h
        subst hc
        rw [he]
        simp [parseStringBody, unescape]
      · obtain ⟨hc, he⟩ := h
        subst hc
        rw [he]
        simp [parseStringBody, unescape]
      · obtain ⟨hc, he⟩ := h
        rw [he]
        obtain ⟨h1, h2⟩ := unicode_escape_reads c.toNat hc
        have h0 : hexVal '0' = some 0 := by decide
        have hval : Char.ofNat (c.toNat / 16 * 16 + c.toNat % 16) = c := by
          have : c.toNat / 16 * 16 + c.toNat % 16 = c.toNat := by omega
          rw [this, Char.ofNat_toNat]
        simp [parseStringBody, h0, h1, h2, hval]
      · obtain ⟨hq, hb, hlt, he⟩ := h
        rw [he]
        simp [parseStringBody, hq, hb, hlt]
    rw [quoteBody, List.append_assoc, step, ih]
    simp

/-- A written decimal digit reads back as its value. -/
theorem digitVal_digit (d : Nat) (h : d ≤ 9) : digitVal (Char.ofNat (48 + d)) = some d := by
  interval_cases d <;> decide

/-- Text after the digits does not change the digits. -/
theorem natDigits_append (rest : List Char) :
    ∀ (fuel n : Nat) (acc : List Char),
      natDigits fuel n (acc ++ rest) = natDigits fuel n acc ++ rest := by
  intro fuel
  induction fuel with
  | zero => intro n acc; simp [natDigits]
  | succ f ih =>
    intro n acc
    simp only [natDigits]
    split
    · simp
    · rw [← ih]; simp

/-- Reading the digits written for `n` onto `v` appends `n` to `v`. -/
theorem natDigits_takeDigits :
    ∀ (fuel n : Nat) (acc : List Char), n < fuel →
      ∃ L : Nat, ∀ v k : Nat,
        takeDigits (natDigits fuel n acc) v k = takeDigits acc (v * 10 ^ (L + 1) + n) (k + (L + 1)) := by
  intro fuel
  induction fuel with
  | zero => intro n acc h; omega
  | succ f ih =>
    intro n acc h
    simp only [natDigits]
    split
    · rename_i hz
      refine ⟨0, fun v k => ?_⟩
      have hd : digitVal (Char.ofNat (48 + n % 10)) = some (n % 10) :=
        digitVal_digit _ (by omega)
      have hn : n % 10 = n := by omega
      rw [hn] at hd
      simp [takeDigits, hd, hn]
    · rename_i hz
      obtain ⟨L, hL⟩ := ih (n / 10) (Char.ofNat (48 + n % 10) :: acc) (by omega)
      refine ⟨L + 1, fun v k => ?_⟩
      have hd : digitVal (Char.ofNat (48 + n % 10)) = some (n % 10) :=
        digitVal_digit _ (by omega)
      rw [hL]
      simp only [takeDigits, hd]
      have e1 : (v * 10 ^ (L + 1) + n / 10) * 10 + n % 10 = v * 10 ^ (L + 1 + 1) + n := by
        have : n / 10 * 10 + n % 10 = n := by omega
        rw [pow_succ _ (L + 1)]
        nlinarith
      rw [e1]
      rfl

/-- The digits of `n` start with a digit, a non-zero one when `n` is positive. -/
theorem natDigits_head :
    ∀ (fuel n : Nat) (acc : List Char), n < fuel →
      ∃ (d : Nat) (tl : List Char), natDigits fuel n acc = Char.ofNat (48 + d) :: tl ∧ d ≤ 9 ∧
        (0 < n → 1 ≤ d) := by
  intro fuel
  induction fuel with
  | zero => intro n acc h; omega
  | succ f ih =>
    intro n acc h
    simp only [natDigits]
    split
    · exact ⟨n % 10, acc, rfl, by omega, by omega⟩
    · obtain ⟨d, tl, h1, h2, h3⟩ := ih (n / 10) (Char.ofNat (48 + n % 10) :: acc) (by omega)
      exact ⟨d, tl, h1, h2, fun _ => h3 (by omega)⟩

/-- A digit is no sign, no white space and opens no other kind of value. -/
theorem digit_char_facts (d : Nat) (h : d ≤ 9) :
    Char.ofNat (48 + d) ≠ '-' ∧ isWs (Char.ofNat (48 + d)) = false ∧
    Char.ofNat (48 + d) ≠ '"' ∧ Char.ofNat (48 + d) ≠ '[' ∧ Char.ofNat (48 + d) ≠ '\x7b' ∧
    Char.ofNat (48 + d) ≠ 'n' ∧ Char.ofNat (48 + d) ≠ 't' ∧ Char.ofNat (48 + d) ≠ 'f' ∧
    (1 ≤ d → Char.ofNat (48 + d) ≠ '0') := by
  interval_cases d <;> decide

/-- A comma or closing brace ends the digits, the fraction and the exponent. -/
theorem endsValue_facts (c : Char) (h : endsValue c) :
    digitVal c = none ∧ c ≠ '.' ∧ c ≠ 'e' ∧ c ≠ 'E' ∧ isWs c = false := by
  rcases h with h | h <;> subst h <;> decide

/-- The digits written for `n` read back as `n` with the sign read before. -/
theorem parseDigits_natDigits (neg : Bool) (n : Nat) (c : Char) (rest : List Char)
    (hc : endsValue c) :
    parseDigits neg (natDigits (n + 1) n [] ++ c :: rest)
      = some (Json.int (if neg then -(n : Int) else n), c :: rest) := by
  obtain ⟨hdv, hdot, he, hE, _⟩ := endsValue_facts c hc
  have tail : ∀ m : Nat, parseFrac neg m (c :: rest)
      = some (Json.int (if neg then -(m : Int) else m), c :: rest) := by
    intro m
    simp [parseFrac, parseExp, hdot, he, hE, mkNumber]
  obtain ⟨d, tl, hhead, hd9, hd1⟩ := natDigits_head (n + 1) n [] (by omega)
  obtain ⟨L, hL⟩ := natDigits_takeDigits (n + 1) n (c :: rest) (by omega)
  by_cases hn : n = 0
  · subst hn
    simp [natDigits, parseDigits, tail]
  · have hne : Char.ofNat (48 + d) ≠ '0' := (digit_char_facts d hd9).2.2.2.2.2.2.2.2 (hd1 (by omega))
    have htake : takeDigits (natDigits (n + 1) n [] ++ c :: rest) 0 0 = (n, L + 1, c :: rest) := by
      have := natDigits_append (c :: rest) (n + 1) n []
      simp only [List.nil_append] at this
      rw [← this, hL]
      simp [takeDigits, hdv]
    have hshape : natDigits (n + 1) n [] ++ c :: rest = Char.ofNat (48 + d) :: (tl ++ c :: rest) := by
      rw [hhead]; rfl
    rw [hshape, parseDigits]
    simp only [hne, if_false]
    rw [← hshape, htake]
    exact tail n

/-- The text of an integer reads back as that integer. -/
theorem parseNumber_intText (z : Int) (c : Char) (rest : List Char) (hc : endsValue c) :
    parseNumber (intText z ++ c :: rest) = some (Json.int z, c :: rest) := by
  cases z with
  | ofNat n =>
    obtain ⟨d, tl, hhead, hd9, _⟩ := natDigits_head (n + 1) n [] (by omega)
    have hminus : Char.ofNat (48 + d) ≠ '-' := (digit_char_facts d hd9).1
    have hsign : takeSign '-' (natDigits (n + 1) n [] ++ c :: rest)
        = (false, natDigits (n + 1) n [] ++ c :: rest) := by
      rw [hhead]
      simp [takeSign, hminus]
    simp only [intText, parseNumber, hsign]
    rw [parseDigits_natDigits false n c rest hc]
    simp
  | negSucc n =>
    have hsign : takeSign '-' ('-' :: natDigits (n + 2) (n + 1) [] ++ c :: rest)
        = (true, natDigits (n + 2) (n + 1) [] ++ c :: rest) := by
      simp [takeSign]
    simp only [intText, parseNumber, hsign]
    rw [parseDigits_natDigits true (n + 1) c rest hc]
    simp [Int.negSucc_eq]

/-- A quoted string reads back as a string value. -/
theorem writes_quote (s : String) : Writes (quote s) (Json.str s) := by
  intro f c rest _
  simp [quote, parseValue, skipWs, isWs, parseStringBody_quoteBody]

/-- The word `null` reads back as null. -/
theorem writes_null : Writes "null".data Json.null := by
  intro f c rest _
  simp [parseValue, skipWs, isWs, dropWord]

/-- The text of an integer reads back as an integer value. -/
theorem writes_intText (z : Int) : Writes (intText z) (Json.int z) := by
  intro f c rest hc
  have hnum := parseNumber_intText z c rest hc
  have hshape : ∃ (c0 : Char) (tl : List Char), intText z = c0 :: tl ∧ isWs c0 = false ∧
      c0 ≠ '"' ∧ c0 ≠ '[' ∧ c0 ≠ '\x7b' ∧ c0 ≠ 'n' ∧ c0 ≠ 't' ∧ c0 ≠ 'f' := by
    cases z with
    | ofNat n =>
      obtain ⟨d, tl, hhead, hd9, _⟩ := natDigits_head (n + 1) n [] (by omega)
      obtain ⟨_, h2, h3, h4, h5, h6, h7, h8, _⟩ := digit_char_facts d hd9
      exact ⟨_, tl, hhead, h2, h3, h4, h5, h6, h7, h8⟩
    | negSucc n =>
      exact ⟨'-', _, rfl, by decide, by decide, by decide, by decide, by decide, by decide,
        by decide⟩
  obtain ⟨c0, tl, hz, h2, h3, h4, h5, h6, h7, h8⟩ := hshape
  rw [hz] at hnum ⊢
  simp only [List.cons_append] at hnum ⊢
  simp [parseValue, skipWs, h2, h3, h4, h5, h6, h7, h8, hnum]

/-- The text of a "string or null" reads back. -/
theorem writes_stringOrNull (o : Option String) :
    Writes (stringOrNullText o)
      (match o with | some t => Json.str t | none => Json.null) := by
  cases o with
  | none => exact writes_null
  | some t => exact writes_quote t

/-- The text of an "integer or null" reads back. -/
theorem writes_intOrNull (o : Option Int) :
    Writes (intOrNullText o)
      (match o with | some e => Json.int e | none => Json.null) := by
  cases o with
  | none => exact writes_null
  | some e => exact writes_intText e

/-- One member read: before a comma the reader goes on with the next member,
before the closing brace it returns the object. -/
theorem parseMembers_member (key : String) (txt : List Char) (v : Json) (h : Writes txt v)
    (f : Nat) (rest : List Char) (acc : List (String × Json)) :
    parseMembers (f + 2) (member key txt ++ ',' :: rest) acc
        = parseMembers (f + 1) rest ((key, v) :: acc) ∧
    parseMembers (f + 2) (member key txt ++ '\x7d' :: rest) acc
        = some (Json.obj ((key, v) :: acc).reverse, rest) := by
  have h1 := h f ',' rest (Or.inl rfl)
  have h2 := h f '\x7d' rest (Or.inr rfl)
  constructor
  · simp [member, quote, parseMembers, skipWs, isWs, dropWord, parseStringBody_quoteBody, h1]
  · simp [member, quote, parseMembers, skipWs, isWs, dropWord, parseStringBody_quoteBody, h2]

/-- The text of a state record reads back as its record, given six units of fuel. -/
theorem parseValue_stringify (s : TimerState) (f : Nat) :
    parseValue (f + 6) (stringify s).data = some (s.toJson, []) := by
  have m1 := (parseMembers_member "task" _ _ (writes_stringOrNull s.task) (f + 3)
    (member "timeLeft" (intText s.timeLeft)
      ++ ',' :: (member "endTime" (intOrNullText s.endTime)
      ++ ',' :: (member "activeSound" (stringOrNullText s.activeSound) ++ ['\x7d']))) []).1
  have m2 := (parseMembers_member "timeLeft" _ _ (writes_intText s.timeLeft) (f + 2)
    (member "endTime" (intOrNullText s.endTime)
      ++ ',' :: (member "activeSound" (stringOrNullText s.activeSound) ++ ['\x7d']))
    [("task", match s.task with | some t => Json.str t | none => Json.null)]).1
  have m3 := (parseMembers_member "endTime" _ _ (writes_intOrNull s.endTime) (f + 1)
    (member "activeSound" (stringOrNullText s.activeSound) ++ ['\x7d'])
    [("timeLeft", Json.int s.timeLeft),
     ("task", match s.task with | some t => Json.str t | none => Json.null)]).1
  have m4 := (parseMembers_member "activeSound" _ _ (writes_stringOrNull s.activeSound) f []
    [("endTime", match s.endTime with | some e => Json.int e | none => Json.null),
     ("timeLeft", Json.int s.timeLeft),
     ("task", match s.task with | some t => Json.str t | none => Json.null)]).2
  have hopen : ∀ tl : List Char,
      parseValue (f + 6) ('\x7b' :: (member "task" (stringOrNullText s.task) ++ tl))
        = parseMembers (f + 5) (member "task" (stringOrNullText s.task) ++ tl) [] := by
    intro tl
    simp [parseValue, skipWs, isWs, member, quote, dropWord]
  simp only [stringify]
  rw [hopen, m1, m2, m3, m4]
  rfl

/-- The concrete `JSON.parse` reads back what the concrete `JSON.stringify` writes. -/
theorem parse_stringify (s : TimerState) : parse (stringify s) = Except.ok s.toJson := by
  have hlen : 3 ≤ (stringify s).length := by
    simp [stringify, member, quote, String.length]
    omega
  obtain ⟨f, hf⟩ : ∃ f, 2 * (stringify s).length + 1 = f + 6 := ⟨2 * (stringify s).length - 5, by omega⟩
  simp [parse, hf, parseValue_stringify, skipWs]

/-- The text of a state record is never empty. -/
theorem stringify_ne_empty (s : TimerState) : stringify s ≠ "" := by
  intro h
  have := congrArg String.length h
  simp [stringify, member, quote, String.length] at this

end JSON

/-! ## Saving and loading -/

/-- Reading the record written for `s` over the default state gives `s`. -/
theorem spread_default_toJson (s : TimerState) :
    spread TimerState.default s.toJson = some s := by
  obtain ⟨task, timeLeft, endTime, activeSound⟩ := s
  cases task <;> cases endTime <;> cases activeSound <;> rfl

/-- Saving and reloading under any codec that reads back the record it wrote for
`s` (and writes a non-empty text). -/
theorem loadState_saveState_of_codec (J : JSONCodec) (s : TimerState) (now : Int)
    (before : Option String) (pending : Nat)
    (hparse : J.parse (J.stringify s) = Except.ok s.toJson)
    (htext : J.stringify s ≠ "")
    (hvalid : s.endTime = none ∨
      ∃ e : Int, s.endTime = some e ∧ now < e ∧ s.timeLeft = Math.ceilDiv (e - now) 1000) :
    ZenFlow.loadState J
        { state := TimerState.default,
          storage := (ZenFlow.saveState J ⟨s, before, pending⟩).storage,
          pending := 0 } now
      = Except.ok { state := s, storage := some (J.stringify s), pending := 0 } := by
  have hrec : reconcile s now = s := by
    rcases hvalid with hn | ⟨e, he, hlt, htl⟩
    · exact reconcile_of_falsy s now (by simp [hn, truthyNum])
    · by_cases h0 : e = 0
      · exact reconcile_of_falsy s now (by simp [he, truthyNum, h0])
      · rw [reconcile_of_ahead s e now he h0 hlt, ← htl]
  simp [ZenFlow.loadState, ZenFlow.saveState, htext, hparse, spread_default_toJson, hrec]

/-- C4. For a state `s` whose `endTime` is null, or later than `now` with
`timeLeft = ceil((endTime - now) / 1000)`: `saveState` on `s`, then `loadState`
at the clock reading `now` on a page with the default in-memory state, returns
and yields exactly `s` (all four fields). This holds with the concrete codec,
and with every codec that reads back the record it wrote for `s`. -/
theorem loadState_saveState (s : TimerState) (now : Int) (before : Option String)
    (pending : Nat)
    (hvalid : s.endTime = none ∨
      ∃ e : Int, s.endTime = some e ∧ now < e ∧ s.timeLeft = Math.ceilDiv (e - now) 1000) :
    ZenFlow.loadState JSON.codec
        { state := TimerState.default,
          storage := (ZenFlow.saveState JSON.codec ⟨s, before, pending⟩).storage,
          pending := 0 } now
      = Except.ok { state := s, storage := some (JSON.stringify s), pending := 0 } ∧
    ∀ J : JSONCodec, J.parse (J.stringify s) = Except.ok s.toJson → J.stringify s ≠ "" →
      ZenFlow.loadState J
          { state := TimerState.default,
            storage := (ZenFlow.saveState J ⟨s, before, pending⟩).storage,
            pending := 0 } now
        = Except.ok { state := s, storage := some (J.stringify s), pending := 0 } :=
  ⟨loadState_saveState_of_codec JSON.codec s now before pending (JSON.parse_stringify s)
      (JSON.stringify_ne_empty s) hvalid,
   fun J hparse htext => loadState_saveState_of_codec J s now before pending hparse htext hvalid⟩

/-- C4 at a concrete input: the running session of the specification, with a
sound switched on, saved and reloaded at 1,000,000. -/
theorem loadState_saveState_witness :
    ZenFlow.loadState JSON.codec
        { state := TimerState.default,
          storage := some
            "\x7b\"task\":\"Write report\",\"timeLeft\":1500,\"endTime\":2500000,\"activeSound\":\"rain\"\x7d",
          pending := 0 } 1000000
      = Except.ok
          { state := ⟨some "Write report", 1500, some 2500000, some "rain"⟩,
            storage := some
              "\x7b\"task\":\"Write report\",\"timeLeft\":1500,\"endTime\":2500000,\"activeSound\":\"rain\"\x7d",
            pending := 0 } :=
  (loadState_saveState ⟨some "Write report", 1500, some 2500000, some "rain"⟩ 1000000 none 1
    (Or.inr ⟨2500000, rfl, by decide, by decide⟩)).1

/-- The reload scenario of the specification through the whole constructor: a
blob saved with the deadline 1,000,000 and loaded at 1,050,000 gives the
expired session with its task name, and no callback is queued. -/
theorem create_after_expiry :
    ZenFlow.create JSON.codec
        (some (JSON.stringify ⟨some "Write report", 1500, some 1000000, none⟩)) 1050000
      = Except.ok
          ⟨⟨some "Write report", 0, none, none⟩,
           some (JSON.stringify ⟨some "Write report", 1500, some 1000000, none⟩), 0⟩ := by
  rfl

/-- C5, as stated, fails on the blob `{oops`: `JSON.parse` rejects it, and
`loadState`, `init` and the constructor end with that error instead of
returning with the default state. -/
theorem loadState_malformed_counterexample :
    JSON.codec.parse "\x7boops" = Except.error "SyntaxError" ∧
    ZenFlow.loadState JSON.codec ⟨TimerState.default, some "\x7boops", 0⟩ 1000000
      = Except.error (LoadError.parseError "SyntaxError") ∧
    ZenFlow.create JSON.codec (some "\x7boops") 1000000
      = Except.error (LoadError.parseError "SyntaxError") ∧
    ZenFlow.loadState JSON.codec ⟨TimerState.default, some "\x7boops", 0⟩ 1000000
      ≠ Except.ok ⟨TimerState.default, some "\x7boops", 0⟩ := by
  refine ⟨rfl, rfl, rfl, ?_⟩
  intro h
  cases h

/-- A stored blob that is present, not the empty text, and fails to parse makes
`loadState` end with the error of `JSON.parse`; `init` and the constructor pass
it on. -/
theorem loadState_error_of_parse_error (J : JSONCodec) (app : ZenFlow)
    (saved message : String) (now : Int) (hs : app.storage = some saved) (hne : saved ≠ "")
    (hp : J.parse saved = Except.error message) :
    ZenFlow.loadState J app now = Except.error (LoadError.parseError message) ∧
    ZenFlow.init J app now = Except.error (LoadError.parseError message) ∧
    ZenFlow.create J (some saved) now = Except.error (LoadError.parseError message) := by
  have h1 : ∀ a : ZenFlow, a.storage = some saved →
      ZenFlow.loadState J a now = Except.error (LoadError.parseError message) := by
    intro a ha
    simp [ZenFlow.loadState, ha, hne, hp]
  refine ⟨h1 app hs, ?_, ?_⟩
  · simp [ZenFlow.init, h1 app hs]
  · simp [ZenFlow.create, ZenFlow.init,
      h1 { state := TimerState.default, storage := some saved, pending := 0 } rfl]

/-- C5, amended. When the stored blob is absent, or present and the empty text
(which does not parse as JSON), `loadState` returns without an error and changes
nothing, whatever the codec does; at startup `init` and the constructor then
return too, with the default state (task null, timeLeft 1500, endTime null,
activeSound null) and no callback queued. These are the two cases the guard
`if (saved)` skips; nothing is stated for other blobs that fail to parse. -/
theorem loadState_guarded (J : JSONCodec) (app : ZenFlow) (now : Int)
    (h : app.storage = none ∨ app.storage = some "") :
    ZenFlow.loadState J app now = Except.ok app ∧
    ZenFlow.create J app.storage now = Except.ok ⟨TimerState.default, app.storage, 0⟩ ∧
    TimerState.default = ⟨none, 1500, none, none⟩ := by
  have h1 : ∀ a : ZenFlow, a.storage = app.storage →
      ZenFlow.loadState J a now = Except.ok a := by
    intro a ha
    rcases h with h | h <;> simp [ZenFlow.loadState, ha, h]
  refine ⟨h1 app rfl, ?_, rfl⟩
  unfold ZenFlow.create ZenFlow.init
  rw [h1 { state := TimerState.default, storage := app.storage, pending := 0 } rfl]
  rfl

/-- C5, amended, at concrete inputs under the concrete codec: the empty text is
present and fails to parse, and the load returns with the default state; so it
does on an empty store. -/
theorem loadState_guarded_witness :
    JSON.codec.parse "" = Except.error "SyntaxError" ∧
    ZenFlow.loadState JSON.codec ⟨TimerState.default, some "", 0⟩ 1000000
      = Except.ok ⟨TimerState.default, some "", 0⟩ ∧
    ZenFlow.create JSON.codec none 1000000 = Except.ok ⟨TimerState.default, none, 0⟩ :=
  ⟨rfl,
   (loadState_guarded JSON.codec ⟨TimerState.default, some "", 0⟩ 1000000 (Or.inr rfl)).1,
   (loadState_guarded JSON.codec ⟨TimerState.default, none, 0⟩ 1000000 (Or.inl rfl)).2.1⟩

/-! ## Persistence after the user mutations -/

/-- The three mutations that call `saveState` leave a blob that decodes to the
in-memory state: `setTask`, `resetTask`, and `addTime` on a truthy deadline. -/
theorem saving_mutations_persist (J : JSONCodec)
    (hJ : ∀ s : TimerState, J.parse (J.stringify s) = Except.ok s.toJson)
    (app : ZenFlow) (taskName : String) (now seconds : Int) :
    ZenFlow.decode J (app.setTask J taskName now).storage
        = some (app.setTask J taskName now).state ∧
    ZenFlow.decode J (app.resetTask J).storage = some (app.resetTask J).state ∧
    (truthyNum app.state.endTime = true →
      ZenFlow.decode J (app.addTime J seconds).storage = some (app.addTime J seconds).state) := by
  refine ⟨?_, ?_, ?_⟩
  · simp [ZenFlow.setTask, ZenFlow.startTimerLoop, ZenFlow.requestAnimationFrame,
      ZenFlow.saveState, ZenFlow.decode, hJ, spread_default_toJson]
  · simp [ZenFlow.resetTask, ZenFlow.saveState, ZenFlow.decode, hJ, spread_default_toJson]
  · intro h
    simp [ZenFlow.addTime, ZenFlow.saveState, ZenFlow.decode, hJ, spread_default_toJson, h]

/-- With the concrete codec: after `setTask`, `resetTask` and `addTime` on a
truthy deadline the stored blob decodes to the in-memory state. -/
theorem saving_mutations_persist_codec (app : ZenFlow) (taskName : String)
    (now seconds : Int) :
    ZenFlow.decode JSON.codec (app.setTask JSON.codec taskName now).storage
        = some (app.setTask JSON.codec taskName now).state ∧
    ZenFlow.decode JSON.codec (app.resetTask JSON.codec).storage
        = some (app.resetTask JSON.codec).state ∧
    (truthyNum app.state.endTime = true →
      ZenFlow.decode JSON.codec (app.addTime JSON.codec seconds).storage
        = some (app.addTime JSON.codec seconds).state) :=
  saving_mutations_persist JSON.codec JSON.parse_stringify app taskName now seconds

/-- The method `toggleSound` never writes to the store. -/
theorem toggleSound_storage (app : ZenFlow) (key : String) :
    (app.toggleSound key).storage = app.storage := by
  unfold ZenFlow.toggleSound
  split <;> rfl

/-- C9 at the failing input: a session is started (and saved), then the sound
`rain` is switched on. The in-memory state has `activeSound = "rain"`, the
stored blob still decodes to the state with `activeSound = null`. -/
theorem toggleSound_store_stale :
    ((ZenFlow.setTask JSON.codec ⟨TimerState.default, none, 0⟩ "Write report"
        1000000).toggleSound "rain").state
      = ⟨some "Write report", 1500, some 2500000, some "rain"⟩ ∧
    ZenFlow.decode JSON.codec
        ((ZenFlow.setTask JSON.codec ⟨TimerState.default, none, 0⟩ "Write report"
          1000000).toggleSound "rain").storage
      = some ⟨some "Write report", 1500, some 2500000, none⟩ ∧
    ZenFlow.decode JSON.codec
        ((ZenFlow.setTask JSON.codec ⟨TimerState.default, none, 0⟩ "Write report"
          1000000).toggleSound "rain").storage
      ≠ some ((ZenFlow.setTask JSON.codec ⟨TimerState.default, none, 0⟩ "Write report"
          1000000).toggleSound "rain").state := by
  refine ⟨rfl, rfl, ?_⟩
  intro h
  have h2 : (some ⟨some "Write report", 1500, some 2500000, none⟩ : Option TimerState)
      = some ⟨some "Write report", 1500, some 2500000, some "rain"⟩ := h
  exact absurd h2 (by decide)

/-! ## Pending callbacks of the timer loop -/

/-- C10 at the failing input. A fresh load on an empty store queues nothing;
`setTask("Write report")` at 1,000,000, `resetTask()`, `setTask("Read paper")`
at 1,000,010 with no frame in between is a run of the page and leaves two
callbacks pending. When the first of them fires at 1,000,016 the guard on
`task` lets it through (the task is set again): it recomputes `timeLeft` and
queues itself again, so two loops go on. `setTask` during a running session
leaves two callbacks pending as well. -/
theorem pending_two_after_reset :
    ZenFlow.create JSON.codec none 1000000 = Except.ok ⟨TimerState.default, none, 0⟩ ∧
    ZenFlow.Reaches JSON.codec ⟨TimerState.default, none, 0⟩
      (ZenFlow.setTask JSON.codec
        (ZenFlow.resetTask JSON.codec
          (ZenFlow.setTask JSON.codec ⟨TimerState.default, none, 0⟩ "Write report" 1000000))
        "Read paper" 1000010) ∧
    (ZenFlow.setTask JSON.codec
        (ZenFlow.resetTask JSON.codec
          (ZenFlow.setTask JSON.codec ⟨TimerState.default, none, 0⟩ "Write report" 1000000))
        "Read paper" 1000010).pending = 2 ∧
    (ZenFlow.fire JSON.codec
        (ZenFlow.setTask JSON.codec
          (ZenFlow.resetTask JSON.codec
            (ZenFlow.setTask JSON.codec ⟨TimerState.default, none, 0⟩ "Write report" 1000000))
          "Read paper" 1000010)
        1000016).pending = 2 ∧
    (ZenFlow.fire JSON.codec
        (ZenFlow.setTask JSON.codec
          (ZenFlow.resetTask JSON.codec
            (ZenFlow.setTask JSON.codec ⟨TimerState.default, none, 0⟩ "Write report" 1000000))
          "Read paper" 1000010)
        1000016).state = ⟨some "Read paper", 1500, some 2500010, none⟩ ∧
    ZenFlow.Reaches JSON.codec ⟨TimerState.default, none, 0⟩
      (ZenFlow.setTask JSON.codec
        (ZenFlow.setTask JSON.codec ⟨TimerState.default, none, 0⟩ "Write report" 1000000)
        "Read paper" 1000010) ∧
    (ZenFlow.setTask JSON.codec
        (ZenFlow.setTask JSON.codec ⟨TimerState.default, none, 0⟩ "Write report" 1000000)
        "Read paper" 1000010).pending = 2 := by
  have h1 : ZenFlow.Reaches JSON.codec ⟨TimerState.default, none, 0⟩
      (ZenFlow.setTask JSON.codec ⟨TimerState.default, none, 0⟩ "Write report" 1000000) :=
    ZenFlow.Reaches.step _ _ ZenFlow.Reaches.start
      (ZenFlow.Step.setTask ⟨TimerState.default, none, 0⟩ "Write report" 1000000)
  refine ⟨rfl, ?_, rfl, rfl, rfl, ?_, rfl⟩
  · exact ZenFlow.Reaches.step _ _
      (ZenFlow.Reaches.step _ _ h1 (ZenFlow.Step.resetTask _))
      (ZenFlow.Step.setTask _ "Read paper" 1000010)
  · exact ZenFlow.Reaches.step _ _ h1 (ZenFlow.Step.setTask _ "Read paper" 1000010)
